import Mathlib

/-
Verification development for the SSD core step engine
(src/ssd_core/core/ssd_core.cpp and src/ssd_align_leap_dll/ssd_align_leap_dll.cpp).

Doubles are modelled as real numbers; the mt19937_64 engine together with its
attached `std::normal_distribution` / `std::uniform_real_distribution` objects
is modelled as a pair of abstract draw streams with cursors recording how many
draws of each kind have been consumed.  Matrices are flattened exactly as in
the source (`idx(i,j,N) = i*N+j`).
-/

open scoped Classical

/-- Parameter block mirroring the C struct `SSDParams` (27 double fields). -/
structure SSDParams where
  G0 : ℝ
  g : ℝ
  eps_noise : ℝ
  eta : ℝ
  rho : ℝ
  lam : ℝ
  kappa_min : ℝ
  alpha : ℝ
  beta_E : ℝ
  Theta0 : ℝ
  a1 : ℝ
  a2 : ℝ
  h0 : ℝ
  gamma : ℝ
  T0 : ℝ
  c1 : ℝ
  c2 : ℝ
  sigma : ℝ
  delta_w : ℝ
  delta_kappa : ℝ
  c0_cool : ℝ
  q_relax : ℝ
  eps_relax : ℝ
  eps0 : ℝ
  d1 : ℝ
  d2 : ℝ
  b_path : ℝ

/-- Telemetry record mirroring the C struct `SSDTelemetry`.  The three
`int32_t` fields are modelled as integers. -/
structure SSDTelemetry where
  E : ℝ
  Theta : ℝ
  h : ℝ
  T : ℝ
  H : ℝ
  J_norm : ℝ
  align_eff : ℝ
  kappa_mean : ℝ
  current : ℤ
  did_jump : ℤ
  rewired_to : ℤ

/-- Model of the seeded random generator: `un` is the stream of
`uniform_real_distribution(0,1)` draws, `nr` the stream of
`normal_distribution(0,1)` draws, and `ui`/`ni` are cursors giving the index
of the next unconsumed draw of each kind. -/
structure RandomSource where
  un : ℕ → ℝ
  nr : ℕ → ℝ
  ui : ℕ
  ni : ℕ

/-- A well-formed uniform stream only produces values in the half-open
interval [0,1), as `std::uniform_real_distribution<double>(0.0,1.0)` does. -/
def RandomSource.wf (r : RandomSource) : Prop :=
  ∀ n, 0 ≤ r.un n ∧ r.un n < 1

/-- The mutable simulation state held behind `SSDHandle` in both DLLs:
node count, current node, the flattened N×N inertia and weight matrices,
heat `E`, threshold offset `F`, temperature `T`, the policy vector `pi`,
the parameter block and the random generator. -/
structure GraphState where
  N : ℕ
  current : ℕ
  kappa : ℕ → ℝ
  w : ℕ → ℝ
  E : ℝ
  F : ℝ
  T : ℝ
  pi : ℕ → ℝ
  prm : SSDParams
  rng : RandomSource

/-- Helper `clip(x, lo, hi)` from both sources. -/
noncomputable def clip (x lo hi : ℝ) : ℝ :=
  if x < lo then lo else if x > hi then hi else x

/-- Flattened matrix index `idx(i,j,N) = i*N + j` from both sources. -/
def idx (i j N : ℕ) : ℕ := i * N + j

/-- Index computed by the argmax loop of `softmax_temp` (start at 0, replace
whenever a strictly larger logit is seen — first occurrence wins on ties). -/
noncomputable def argmaxIdx (logits : ℕ → ℝ) (n : ℕ) : ℕ :=
  (List.range n).foldl (fun a i => if logits a < logits i then i else a) 0

/-- Maximum logit: `*std::max_element(...)` in ssd_core.cpp; the align DLL
computes the same value by folding `max` starting from `logits[0]`
(its `i==i ? logits[i] : maxv` ternary is always the first arm). -/
noncomputable def maxLogit (logits : ℕ → ℝ) (n : ℕ) : ℝ :=
  (List.range n).foldl (fun m i => max m (logits i)) (logits 0)

/-- Temperature-scaled softmax `softmax_temp` shared by both sources: an
empty input is left empty; `T ≤ 1e-8` collapses to a one-hot vector at the
first argmax; otherwise exponentials of the max-shifted scaled logits are
normalized by their sum (a nonpositive sum is replaced by 1). -/
noncomputable def softmax_temp (logits : ℕ → ℝ) (T : ℝ) (n : ℕ) : ℕ → ℝ :=
  if n = 0 then fun _ => 0
  else if T ≤ 1e-8 then fun k => if k = argmaxIdx logits n then 1 else 0
  else
    let maxv := maxLogit logits n
    let S := ∑ i in Finset.range n, Real.exp ((logits i - maxv) / T)
    let S' := if S ≤ 0 then 1 else S
    fun k => Real.exp ((logits k - maxv) / T) / S'

/-- Normalized Shannon entropy `entropy_norm` shared by both sources:
entries at most 1e-12 are floored to 1e-12 before taking the logarithm,
and the entropy is divided by `log n` when that is positive. -/
noncomputable def entropy_norm (p : ℕ → ℝ) (n : ℕ) : ℝ :=
  if n = 0 then 0
  else
    let H := ∑ i in Finset.range n,
      (let x := if p i ≤ 1e-12 then 1e-12 else p i; -(x * Real.log x))
    let Hmax := Real.log n
    if 0 < Hmax then H / Hmax else 0

/-- Phase 1 flow value `j[i] = (G0 + g*kappa[i])*p`, plus
`eps_noise * normal()` when `eps_noise > 0`; the i-th loop iteration
consumes the i-th pending normal draw. -/
noncomputable def flow_j (s : GraphState) (p : ℝ) (i : ℕ) : ℝ :=
  (s.prm.G0 + s.prm.g * s.kappa i) * p +
    (if 0 < s.prm.eps_noise then s.prm.eps_noise * s.rng.nr (s.rng.ni + i) else 0)

/-- Normal-stream cursor after Phase 1 (one draw per edge iff noise is on). -/
noncomputable def ni1 (s : GraphState) : ℕ :=
  s.rng.ni + (if 0 < s.prm.eps_noise then s.N * s.N else 0)

/-- Phase 1 accumulator `J_norm = sqrt(Σ j[i]²)` over the flattened matrix. -/
noncomputable def J_norm (s : GraphState) (p : ℝ) : ℝ :=
  Real.sqrt (∑ i in Finset.range (s.N * s.N), flow_j s p i * flow_j s p i)

/-- Phase 2 inertia entry: explicit-Euler update
`max(kappa[i] + (eta*(p*j - rho*j²) - lam*(kappa[i]-kappa_min))*dt, kappa_min)`
for matrix entries, identity elsewhere. -/
noncomputable def kappa2 (s : GraphState) (p dt : ℝ) (i : ℕ) : ℝ :=
  if i < s.N * s.N then
    max (s.kappa i +
      (s.prm.eta * (p * flow_j s p i - s.prm.rho * (flow_j s p i * flow_j s p i))
        - s.prm.lam * (s.kappa i - s.prm.kappa_min)) * dt)
      s.prm.kappa_min
  else s.kappa i

/-- Phase 3 heat value `max(E + (alpha*max(|p|-J_norm,0) - beta_E*E)*dt, 0)`. -/
noncomputable def E3 (s : GraphState) (p dt : ℝ) : ℝ :=
  max (s.E + (s.prm.alpha * max (|p| - J_norm s p) 0 - s.prm.beta_E * s.E) * dt) 0

/-- Phase 4 mean of the (post-Phase-2) inertia matrix. -/
noncomputable def kappaMean (s : GraphState) (p dt : ℝ) : ℝ :=
  (∑ i in Finset.range (s.N * s.N), kappa2 s p dt i) / ((s.N * s.N : ℕ) : ℝ)

/-- Phase 4 dynamic threshold `Theta = Theta0 + a1*kappa_mean - a2*F`. -/
noncomputable def Theta4 (s : GraphState) (p dt : ℝ) : ℝ :=
  s.prm.Theta0 + s.prm.a1 * kappaMean s p dt - s.prm.a2 * s.F

/-- Phase 4 jump rate `h = h0 * exp((E - Theta)/max(1e-8, gamma))`. -/
noncomputable def hrate (s : GraphState) (p dt : ℝ) : ℝ :=
  s.prm.h0 * Real.exp ((E3 s p dt - Theta4 s p dt) / max 1e-8 s.prm.gamma)

/-- Phase 4 (stale) policy entropy: 1.0 for an empty policy vector,
`entropy_norm` of the stored policy otherwise. -/
noncomputable def policyEntropy (s : GraphState) : ℝ :=
  if s.N = 0 then 1 else entropy_norm s.pi s.N

/-- Phase 4 temperature `T = max(1e-6, T0 + c1*E - c2*H(pi))`. -/
noncomputable def T4 (s : GraphState) (p dt : ℝ) : ℝ :=
  max 1e-6 (s.prm.T0 + s.prm.c1 * E3 s p dt - s.prm.c2 * policyEntropy s)

/-- Phase 5 jump probability `1 - exp(-h*dt)`. -/
noncomputable def pJump (s : GraphState) (p dt : ℝ) : ℝ :=
  1 - Real.exp (-(hrate s p dt) * dt)

/-- Jump-branch logits over the current row: post-Phase-2 inertia, minus 1 on
the self loop, plus `sigma * normal()` (the k-th iteration consumes the k-th
pending normal draw). -/
noncomputable def jumpLogits (s : GraphState) (p dt : ℝ) (k : ℕ) : ℝ :=
  kappa2 s p dt (idx s.current k s.N) - (if k = s.current then 1 else 0)
    + s.prm.sigma * s.rng.nr (ni1 s + k)

/-- Freshly computed policy at jump time. -/
noncomputable def piJump (s : GraphState) (p dt : ℝ) : ℕ → ℝ :=
  softmax_temp (jumpLogits s p dt) (T4 s p dt) s.N

/-- Categorical sampling loop: walk the cumulative distribution, stopping at
the first k with `r ≤ cdf`; `fb` is the fallback `N-1`.  Arguments after `fb`
are the remaining iteration count, the next index and the running cdf. -/
noncomputable def selectWalk (q : ℕ → ℝ) (r : ℝ) (fb : ℕ) : ℕ → ℕ → ℝ → ℕ
  | 0, _, _ => fb
  | m + 1, k, cdf => if r ≤ cdf + q k then k else selectWalk q r fb m (k + 1) (cdf + q k)

/-- Node selected by the jump branch (the sampling draw is the second uniform
consumed by the step). -/
noncomputable def selectedNode (s : GraphState) (p dt : ℝ) : ℕ :=
  selectWalk (piJump s p dt) (s.rng.un (s.rng.ui + 1)) (s.N - 1) s.N 0 0

/-- Number of edges relaxed: `max(1, (int)round(q_relax * N²))`. -/
noncomputable def relaxCount (s : GraphState) : ℕ :=
  max 1 (round (s.prm.q_relax * ((s.N * s.N : ℕ) : ℝ))).toNat

/-- Rank of edge i when the flattened Phase-1 flow matrix is ordered by
decreasing `|j|`, ties broken by increasing index.  `std::partial_sort` with
comparator `|j[a]| > |j[b]|` leaves tie order unspecified; the spec accepts
deterministic index-order tie-breaking, which is what this models. -/
noncomputable def relaxRank (s : GraphState) (p : ℝ) (i : ℕ) : ℕ :=
  ((Finset.range (s.N * s.N)).filter
    (fun a => |flow_j s p a| > |flow_j s p i| ∨
      (|flow_j s p a| = |flow_j s p i| ∧ a < i))).card

/-- Inertia matrix after the jump branch: `delta_kappa` added on the rewired
edge, then the `relaxCount` largest-|flow| edges lowered by `eps_relax` with
the `kappa_min` floor re-applied. -/
noncomputable def kappaJump (s : GraphState) (p dt : ℝ) : ℕ → ℝ :=
  let sel := selectedNode s p dt
  let k6 := Function.update (kappa2 s p dt) (idx s.current sel s.N)
              (kappa2 s p dt (idx s.current sel s.N) + s.prm.delta_kappa)
  fun i => if i < s.N * s.N ∧ relaxRank s p i < relaxCount s
           then max (k6 i - s.prm.eps_relax) s.prm.kappa_min
           else k6 i

/-- Weight matrix after the jump branch: `delta_w` added on the rewired edge. -/
noncomputable def wJump (s : GraphState) (p dt : ℝ) : ℕ → ℝ :=
  let sel := selectedNode s p dt
  Function.update s.w (idx s.current sel s.N)
    (s.w (idx s.current sel s.N) + s.prm.delta_w)

/-- No-jump branch exploration rate `clip(eps0 + d1*E - d2*kappa_mean, 0, 1)`. -/
noncomputable def epsExplore (s : GraphState) (p dt : ℝ) : ℝ :=
  clip (s.prm.eps0 + s.prm.d1 * E3 s p dt - s.prm.d2 * kappaMean s p dt) 0 1

/-- Random nudge target `k = floor(uniform()*N)` (clamped when `k = N`);
drawn from the third uniform of the step. -/
noncomputable def nudgeTarget (s : GraphState) : ℕ :=
  let k := (⌊s.rng.un (s.rng.ui + 2) * (s.N : ℝ)⌋).toNat
  if k = s.N then s.N - 1 else k

/-- Whether the ε-greedy nudge draw fires (second uniform below ε). -/
noncomputable def nudgeFires (s : GraphState) (p dt : ℝ) : Prop :=
  s.rng.un (s.rng.ui + 1) < epsExplore s p dt

/-- Inertia matrix after the no-jump branch: `+0.05` on edge
`(current, k)` when the nudge fires and the target differs from `current`. -/
noncomputable def kappaNoJump (s : GraphState) (p dt : ℝ) : ℕ → ℝ :=
  if nudgeFires s p dt ∧ nudgeTarget s ≠ s.current then
    Function.update (kappa2 s p dt) (idx s.current (nudgeTarget s) s.N)
      (kappa2 s p dt (idx s.current (nudgeTarget s) s.N) + 0.05)
  else kappa2 s p dt

/-- Weight matrix after the no-jump branch. -/
noncomputable def wNoJump (s : GraphState) (p dt : ℝ) : ℕ → ℝ :=
  if nudgeFires s p dt ∧ nudgeTarget s ≠ s.current then
    Function.update s.w (idx s.current (nudgeTarget s) s.N)
      (s.w (idx s.current (nudgeTarget s) s.N) + 0.05)
  else s.w

/-- Uniform-stream cursor after the no-jump branch: the target draw is only
consumed when the nudge draw fires. -/
noncomputable def uiNoJump (s : GraphState) (p dt : ℝ) : ℕ :=
  if nudgeFires s p dt then s.rng.ui + 3 else s.rng.ui + 2

/-- Deterministic action selection: argmax of the current row with a `1e-6`
self-loop penalty, starting from `best = current, best_value = -1e300` and
replacing on strictly greater values. -/
noncomputable def bestAction (kap : ℕ → ℝ) (cur n : ℕ) : ℕ :=
  ((List.range n).foldl
    (fun acc k =>
      let v := kap (idx cur k n) - (if k = cur then 1e-6 else 0)
      if acc.2 < v then (k, v) else acc)
    (cur, -1e300)).1

/-- Result of `ssd_step` when the jump branch is taken. -/
noncomputable def stepJump (s : GraphState) (p dt : ℝ) : GraphState × SSDTelemetry :=
  let sel := selectedNode s p dt
  ({ N := s.N, current := sel, kappa := kappaJump s p dt, w := wJump s p dt,
     E := E3 s p dt * s.prm.c0_cool, F := s.F, T := T4 s p dt,
     pi := piJump s p dt, prm := s.prm,
     rng := { un := s.rng.un, nr := s.rng.nr, ui := s.rng.ui + 2, ni := ni1 s + s.N } },
   { E := E3 s p dt * s.prm.c0_cool, Theta := Theta4 s p dt, h := hrate s p dt,
     T := T4 s p dt, H := policyEntropy s, J_norm := J_norm s p,
     align_eff := if 1e-8 < |p| then J_norm s p / |p| else 0,
     kappa_mean := kappaMean s p dt,
     current := (sel : ℤ), did_jump := 1, rewired_to := (sel : ℤ) })

/-- Result of `ssd_step` when the no-jump branch is taken. -/
noncomputable def stepNoJump (s : GraphState) (p dt : ℝ) : GraphState × SSDTelemetry :=
  let best := bestAction (kappaNoJump s p dt) s.current s.N
  ({ N := s.N, current := best, kappa := kappaNoJump s p dt, w := wNoJump s p dt,
     E := E3 s p dt, F := s.F, T := T4 s p dt, pi := s.pi, prm := s.prm,
     rng := { un := s.rng.un, nr := s.rng.nr, ui := uiNoJump s p dt, ni := ni1 s } },
   { E := E3 s p dt, Theta := Theta4 s p dt, h := hrate s p dt,
     T := T4 s p dt, H := policyEntropy s, J_norm := J_norm s p,
     align_eff := if 1e-8 < |p| then J_norm s p / |p| else 0,
     kappa_mean := kappaMean s p dt,
     current := (best : ℤ), did_jump := 0, rewired_to := (best : ℤ) })

/-- One tick of `ssd_step` from ssd_core.cpp on a non-null handle: the five
phases, branching on `uniform() < p_jump` (the first uniform of the step). -/
noncomputable def ssd_step (s : GraphState) (p dt : ℝ) : GraphState × SSDTelemetry :=
  if s.rng.un s.rng.ui < pJump s p dt then stepJump s p dt else stepNoJump s p dt

/-- C ABI view of `ssd_step`: the handle may be null (`none`), in which case
the function returns immediately and the caller-supplied telemetry struct
keeps its previous contents. -/
noncomputable def ssd_step_api (h : Option GraphState) (p dt : ℝ) (out : SSDTelemetry) :
    Option GraphState × SSDTelemetry :=
  match h with
  | none => (none, out)
  | some s => (some (ssd_step s p dt).1, (ssd_step s p dt).2)

/-- Freshly constructed handle state (the `SSDHandle` constructor): zero
matrices, `E = F = 0`, `T = T0`, uniform policy `1/max(1,n)`, current node 0. -/
noncomputable def initState (n : ℕ) (prm : SSDParams) (r : RandomSource) : GraphState :=
  { N := n, current := 0, kappa := fun _ => 0, w := fun _ => 0,
    E := 0, F := 0, T := prm.T0, pi := fun _ => 1 / ((max 1 n : ℕ) : ℝ),
    prm := prm, rng := r }

/-- `ssd_create`: rejects `N ≤ 0`, remaps seed 0 to 123456789, and builds the
fresh state.  `gen` models the seeding of mt19937_64: the map from a seed to
the deterministic draw streams of the engine. -/
noncomputable def ssd_create (n : ℤ) (prm : SSDParams) (seed : ℕ) (gen : ℕ → RandomSource) :
    Option GraphState :=
  if n ≤ 0 then none
  else some (initState n.toNat prm (gen (if seed = 0 then 123456789 else seed)))

/-- Repeatedly step a handle through a list of `(drive, dt)` inputs,
collecting the telemetry of every tick. -/
noncomputable def ssd_run (s : GraphState) : List (ℝ × ℝ) → List SSDTelemetry
  | [] => []
  | (p, dt) :: rest => (ssd_step s p dt).2 :: ssd_run (ssd_step s p dt).1 rest

/-- Phase 2 of ssd_align_leap_dll.cpp: same Euler update but with the floor
written as a ternary `(k < kappa_min) ? kappa_min : k`. -/
noncomputable def alignKappa2 (s : GraphState) (p dt : ℝ) (i : ℕ) : ℝ :=
  if i < s.N * s.N then
    let k := s.kappa i +
      (s.prm.eta * (p * flow_j s p i - s.prm.rho * (flow_j s p i * flow_j s p i))
        - s.prm.lam * (s.kappa i - s.prm.kappa_min)) * dt
    if k < s.prm.kappa_min then s.prm.kappa_min else k
  else s.kappa i

/-- Phase 3 of ssd_align_leap_dll.cpp: `E += dE*dt; if (E < 0) E = 0`. -/
noncomputable def alignE3 (s : GraphState) (p dt : ℝ) : ℝ :=
  let E1 := s.E + (s.prm.alpha * max (|p| - J_norm s p) 0 - s.prm.beta_E * s.E) * dt
  if E1 < 0 then 0 else E1

/-- Phase 4 inertia mean in the align DLL. -/
noncomputable def alignKappaMean (s : GraphState) (p dt : ℝ) : ℝ :=
  (∑ i in Finset.range (s.N * s.N), alignKappa2 s p dt i) / ((s.N * s.N : ℕ) : ℝ)

/-- Phase 4 threshold in the align DLL. -/
noncomputable def alignTheta (s : GraphState) (p dt : ℝ) : ℝ :=
  s.prm.Theta0 + s.prm.a1 * alignKappaMean s p dt - s.prm.a2 * s.F

/-- Phase 4 jump rate in the align DLL. -/
noncomputable def alignHrate (s : GraphState) (p dt : ℝ) : ℝ :=
  s.prm.h0 * Real.exp ((alignE3 s p dt - alignTheta s p dt) / max 1e-8 s.prm.gamma)

/-- Phase 4 temperature in the align DLL. -/
noncomputable def alignT (s : GraphState) (p dt : ℝ) : ℝ :=
  max 1e-6 (s.prm.T0 + s.prm.c1 * alignE3 s p dt - s.prm.c2 * policyEntropy s)

/-- Phase 5 jump probability in the align DLL. -/
noncomputable def alignPJump (s : GraphState) (p dt : ℝ) : ℝ :=
  1 - Real.exp (-(alignHrate s p dt) * dt)

/-- Jump-branch logits in the align DLL. -/
noncomputable def alignLogits (s : GraphState) (p dt : ℝ) (k : ℕ) : ℝ :=
  alignKappa2 s p dt (idx s.current k s.N) - (if k = s.current then 1 else 0)
    + s.prm.sigma * s.rng.nr (ni1 s + k)

/-- Fresh policy at jump time in the align DLL. -/
noncomputable def alignPi (s : GraphState) (p dt : ℝ) : ℕ → ℝ :=
  softmax_temp (alignLogits s p dt) (alignT s p dt) s.N

/-- Node selected by the align DLL's jump branch. -/
noncomputable def alignSelected (s : GraphState) (p dt : ℝ) : ℕ :=
  selectWalk (alignPi s p dt) (s.rng.un (s.rng.ui + 1)) (s.N - 1) s.N 0 0

/-- Inertia matrix after the align DLL's jump branch (rewire then relax,
relax floor again written as a ternary). -/
noncomputable def alignKappaJump (s : GraphState) (p dt : ℝ) : ℕ → ℝ :=
  let sel := alignSelected s p dt
  let k6 := Function.update (alignKappa2 s p dt) (idx s.current sel s.N)
              (alignKappa2 s p dt (idx s.current sel s.N) + s.prm.delta_kappa)
  fun i => if i < s.N * s.N ∧ relaxRank s p i < relaxCount s
           then (let k := k6 i - s.prm.eps_relax
                 if k < s.prm.kappa_min then s.prm.kappa_min else k)
           else k6 i

/-- Weight matrix after the align DLL's jump branch. -/
noncomputable def alignWJump (s : GraphState) (p dt : ℝ) : ℕ → ℝ :=
  let sel := alignSelected s p dt
  Function.update s.w (idx s.current sel s.N)
    (s.w (idx s.current sel s.N) + s.prm.delta_w)

/-- Exploration rate in the align DLL's no-jump branch. -/
noncomputable def alignEps (s : GraphState) (p dt : ℝ) : ℝ :=
  clip (s.prm.eps0 + s.prm.d1 * alignE3 s p dt - s.prm.d2 * alignKappaMean s p dt) 0 1

/-- Whether the align DLL's nudge draw fires. -/
noncomputable def alignNudgeFires (s : GraphState) (p dt : ℝ) : Prop :=
  s.rng.un (s.rng.ui + 1) < alignEps s p dt

/-- Inertia matrix after the align DLL's no-jump branch. -/
noncomputable def alignKappaNoJump (s : GraphState) (p dt : ℝ) : ℕ → ℝ :=
  if alignNudgeFires s p dt ∧ nudgeTarget s ≠ s.current then
    Function.update (alignKappa2 s p dt) (idx s.current (nudgeTarget s) s.N)
      (alignKappa2 s p dt (idx s.current (nudgeTarget s) s.N) + 0.05)
  else alignKappa2 s p dt

/-- Weight matrix after the align DLL's no-jump branch. -/
noncomputable def alignWNoJump (s : GraphState) (p dt : ℝ) : ℕ → ℝ :=
  if alignNudgeFires s p dt ∧ nudgeTarget s ≠ s.current then
    Function.update s.w (idx s.current (nudgeTarget s) s.N)
      (s.w (idx s.current (nudgeTarget s) s.N) + 0.05)
  else s.w

/-- Uniform-stream cursor after the align DLL's no-jump branch. -/
noncomputable def alignUiNoJump (s : GraphState) (p dt : ℝ) : ℕ :=
  if alignNudgeFires s p dt then s.rng.ui + 3 else s.rng.ui + 2

/-- Jump-branch result of the align DLL's `ssd_step`; its telemetry `H` is
recomputed from the freshly written policy vector. -/
noncomputable def alignStepJump (s : GraphState) (p dt : ℝ) : GraphState × SSDTelemetry :=
  let sel := alignSelected s p dt
  ({ N := s.N, current := sel, kappa := alignKappaJump s p dt, w := alignWJump s p dt,
     E := alignE3 s p dt * s.prm.c0_cool, F := s.F, T := alignT s p dt,
     pi := alignPi s p dt, prm := s.prm,
     rng := { un := s.rng.un, nr := s.rng.nr, ui := s.rng.ui + 2, ni := ni1 s + s.N } },
   { E := alignE3 s p dt * s.prm.c0_cool, Theta := alignTheta s p dt,
     h := alignHrate s p dt, T := alignT s p dt,
     H := if s.N = 0 then 1 else entropy_norm (alignPi s p dt) s.N,
     J_norm := J_norm s p,
     align_eff := if 1e-8 < |p| then J_norm s p / |p| else 0,
     kappa_mean := alignKappaMean s p dt,
     current := (sel : ℤ), did_jump := 1, rewired_to := (sel : ℤ) })

/-- No-jump-branch result of the align DLL's `ssd_step`; the policy is left
untouched, so its recomputed telemetry `H` is the stale entropy again. -/
noncomputable def alignStepNoJump (s : GraphState) (p dt : ℝ) : GraphState × SSDTelemetry :=
  let best := bestAction (alignKappaNoJump s p dt) s.current s.N
  ({ N := s.N, current := best, kappa := alignKappaNoJump s p dt, w := alignWNoJump s p dt,
     E := alignE3 s p dt, F := s.F, T := alignT s p dt, pi := s.pi, prm := s.prm,
     rng := { un := s.rng.un, nr := s.rng.nr, ui := alignUiNoJump s p dt, ni := ni1 s } },
   { E := alignE3 s p dt, Theta := alignTheta s p dt, h := alignHrate s p dt,
     T := alignT s p dt, H := policyEntropy s, J_norm := J_norm s p,
     align_eff := if 1e-8 < |p| then J_norm s p / |p| else 0,
     kappa_mean := alignKappaMean s p dt,
     current := (best : ℤ), did_jump := 0, rewired_to := (best : ℤ) })

/-- One tick of `ssd_step` from ssd_align_leap_dll.cpp on a non-null handle. -/
noncomputable def ssd_align_step (s : GraphState) (p dt : ℝ) : GraphState × SSDTelemetry :=
  if s.rng.un s.rng.ui < alignPJump s p dt then alignStepJump s p dt
  else alignStepNoJump s p dt

/-- Draw-stream source whose uniform and normal streams are constantly 0. -/
def U0 : RandomSource := ⟨fun _ => 0, fun _ => 0, 0, 0⟩

/-- All-zero parameter block. -/
noncomputable def P0 : SSDParams :=
  ⟨0,0,0,0,0,0,0, 0,0, 0,0,0,0,0, 0,0,0, 0, 0,0,0,0,0, 0,0,0, 0⟩

/-- Parameter block arranged so that one step from heat `E = 1` has jump rate
exactly 1 (`Theta0 = gamma = h0 = T0 = 1`, all other coefficients 0). -/
noncomputable def PJ : SSDParams :=
  ⟨0,0,0,0,0,0,0, 0,0, 1,0,0,1,1, 1,0,0, 0, 0,0,0,0,0, 0,0,0, 0⟩

/-- Like `PJ` but with a negative cooling factor `c0_cool = -1`. -/
noncomputable def P1 : SSDParams :=
  ⟨0,0,0,0,0,0,0, 0,0, 1,0,0,1,1, 1,0,0, 0, 0,0,-1,0,0, 0,0,0, 0⟩

/-- Parameter block of the §8 scenario: `G0 = 0.5`, `eta = 0.3`, all other
coefficients relevant to Phases 1–2 zero. -/
noncomputable def P8 : SSDParams :=
  ⟨0.5,0,0,0.3,0,0,0, 0,0, 0,0,0,0,0, 0,0,0, 0, 0,0,0,0,0, 0,0,0, 0⟩

/-- Fresh-style two-node state with all-zero parameters. -/
noncomputable def sW : GraphState :=
  ⟨2, 0, fun _ => 0, fun _ => 0, 0, 0, 0, fun _ => 1/2, P0, U0⟩

/-- Two-node state with heat 1 and parameters `PJ` (a jump is certain to be
considered and the zero uniform draw takes the jump branch). -/
noncomputable def sJ : GraphState :=
  ⟨2, 0, fun _ => 0, fun _ => 0, 1, 0, 1, fun _ => 1/2, PJ, U0⟩

/-- Like `sJ` but with the negative cooling factor of `P1`. -/
noncomputable def s1 : GraphState :=
  ⟨2, 0, fun _ => 0, fun _ => 0, 1, 0, 1, fun _ => 1/2, P1, U0⟩

/-- Like `sJ` but with a non-probability stale policy vector `(2, 3)`. -/
noncomputable def sH : GraphState :=
  ⟨2, 0, fun _ => 0, fun _ => 0, 1, 0, 1, fun k => if k = 0 then 2 else 3, PJ, U0⟩

/-- Telemetry struct whose `E` field holds 1 and whose other fields are 0,
modelling caller-owned output memory with prior contents. -/
noncomputable def T1 : SSDTelemetry := ⟨1, 0, 0, 0, 0, 0, 0, 0, 0, 0, 0⟩

lemma ite_lt_eq_max (a b : ℝ) : (if a < b then b else a) = max a b := by
  rcases le_or_lt b a with h | h
  · rw [if_neg (not_lt.mpr h), max_eq_left h]
  · rw [if_pos h, max_eq_right h.le]

lemma alignKappa2_eq (s : GraphState) (p dt : ℝ) : alignKappa2 s p dt = kappa2 s p dt := by
  funext i
  unfold alignKappa2 kappa2
  split
  · exact ite_lt_eq_max _ _
  · rfl

lemma alignE3_eq (s : GraphState) (p dt : ℝ) : alignE3 s p dt = E3 s p dt := by
  unfold alignE3 E3
  exact ite_lt_eq_max _ _

lemma alignKappaMean_eq (s : GraphState) (p dt : ℝ) :
    alignKappaMean s p dt = kappaMean s p dt := by
  unfold alignKappaMean kappaMean
  rw [alignKappa2_eq]

lemma alignTheta_eq (s : GraphState) (p dt : ℝ) : alignTheta s p dt = Theta4 s p dt := by
  unfold alignTheta Theta4
  rw [alignKappaMean_eq]

lemma alignHrate_eq (s : GraphState) (p dt : ℝ) : alignHrate s p dt = hrate s p dt := by
  unfold alignHrate hrate
  rw [alignE3_eq, alignTheta_eq]

lemma alignT_eq (s : GraphState) (p dt : ℝ) : alignT s p dt = T4 s p dt := by
  unfold alignT T4
  rw [alignE3_eq]

lemma alignPJump_eq (s : GraphState) (p dt : ℝ) : alignPJump s p dt = pJump s p dt := by
  unfold alignPJump pJump
  rw [alignHrate_eq]

lemma alignLogits_eq (s : GraphState) (p dt : ℝ) : alignLogits s p dt = jumpLogits s p dt := by
  funext k
  unfold alignLogits jumpLogits
  rw [alignKappa2_eq]

lemma alignPi_eq (s : GraphState) (p dt : ℝ) : alignPi s p dt = piJump s p dt := by
  unfold alignPi piJump
  rw [alignLogits_eq, alignT_eq]

lemma alignSelected_eq (s : GraphState) (p dt : ℝ) :
    alignSelected s p dt = selectedNode s p dt := by
  unfold alignSelected selectedNode
  rw [alignPi_eq]

lemma alignKappaJump_eq (s : GraphState) (p dt : ℝ) :
    alignKappaJump s p dt = kappaJump s p dt := by
  funext i
  unfold alignKappaJump kappaJump
  rw [alignKappa2_eq, alignSelected_eq]
  dsimp only
  split
  · exact ite_lt_eq_max _ _
  · rfl

lemma alignWJump_eq (s : GraphState) (p dt : ℝ) : alignWJump s p dt = wJump s p dt := by
  unfold alignWJump wJump
  rw [alignSelected_eq]

lemma alignEps_eq (s : GraphState) (p dt : ℝ) : alignEps s p dt = epsExplore s p dt := by
  unfold alignEps epsExplore
  rw [alignE3_eq, alignKappaMean_eq]

lemma alignNudgeFires_iff (s : GraphState) (p dt : ℝ) :
    alignNudgeFires s p dt ↔ nudgeFires s p dt := by
  unfold alignNudgeFires nudgeFires
  rw [alignEps_eq]

lemma alignKappaNoJump_eq (s : GraphState) (p dt : ℝ) :
    alignKappaNoJump s p dt = kappaNoJump s p dt := by
  unfold alignKappaNoJump kappaNoJump
  rw [alignKappa2_eq]
  by_cases hf : nudgeFires s p dt ∧ nudgeTarget s ≠ s.current
  · rw [if_pos ((and_congr_left fun _ => alignNudgeFires_iff s p dt).mpr hf), if_pos hf]
  · rw [if_neg (fun hc => hf ((and_congr_left fun _ => alignNudgeFires_iff s p dt).mp hc)),
      if_neg hf]

lemma alignWNoJump_eq (s : GraphState) (p dt : ℝ) :
    alignWNoJump s p dt = wNoJump s p dt := by
  unfold alignWNoJump wNoJump
  by_cases hf : nudgeFires s p dt ∧ nudgeTarget s ≠ s.current
  · rw [if_pos ((and_congr_left fun _ => alignNudgeFires_iff s p dt).mpr hf), if_pos hf]
  · rw [if_neg (fun hc => hf ((and_congr_left fun _ => alignNudgeFires_iff s p dt).mp hc)),
      if_neg hf]

lemma alignUiNoJump_eq (s : GraphState) (p dt : ℝ) :
    alignUiNoJump s p dt = uiNoJump s p dt := by
  unfold alignUiNoJump uiNoJump
  by_cases hf : nudgeFires s p dt
  · rw [if_pos ((alignNudgeFires_iff s p dt).mpr hf), if_pos hf]
  · rw [if_neg (fun hc => hf ((alignNudgeFires_iff s p dt).mp hc)), if_neg hf]

lemma argmaxIdx_succ (logits : ℕ → ℝ) (n : ℕ) :
    argmaxIdx logits (n + 1) =
      (if logits (argmaxIdx logits n) < logits n then n else argmaxIdx logits n) := by
  unfold argmaxIdx
  rw [List.range_succ, List.foldl_append, List.foldl_cons, List.foldl_nil]

lemma argmaxIdx_spec (logits : ℕ → ℝ) (n : ℕ) (hn : 1 ≤ n) :
    argmaxIdx logits n < n ∧ (∀ k < n, logits k ≤ logits (argmaxIdx logits n)) ∧
      (∀ k < argmaxIdx logits n, logits k < logits (argmaxIdx logits n)) := by
  induction n, hn using Nat.le_induction with
  | base =>
    have h1 : argmaxIdx logits 1 = 0 := by
      unfold argmaxIdx
      rw [show List.range 1 = [0] from rfl, List.foldl_cons, List.foldl_nil,
        if_neg (lt_irrefl _)]
    refine ⟨by rw [h1]; exact Nat.zero_lt_one, ?_, ?_⟩
    · intro k hk
      interval_cases k
      · rw [h1]
    · intro k hk
      rw [h1] at hk
      exact absurd hk (Nat.not_lt_zero k)
  | succ m hm ih =>
    obtain ⟨ihlt, ihmax, ihfirst⟩ := ih
    rw [argmaxIdx_succ]
    by_cases hlt : logits (argmaxIdx logits m) < logits m
    · rw [if_pos hlt]
      refine ⟨Nat.lt_succ_self m, ?_, ?_⟩
      · intro k hk
        rcases Nat.lt_succ_iff_lt_or_eq.mp hk with hk' | hk'
        · exact le_of_lt (lt_of_le_of_lt (ihmax k hk') hlt)
        · rw [hk']
      · intro k hk
        exact lt_of_le_of_lt (ihmax k hk) hlt
    · rw [if_neg hlt]
      refine ⟨Nat.lt_succ_of_lt ihlt, ?_, ihfirst⟩
      intro k hk
      rcases Nat.lt_succ_iff_lt_or_eq.mp hk with hk' | hk'
      · exact ihmax k hk'
      · rw [hk']
        exact not_lt.mp hlt

lemma softmax_nonneg (logits : ℕ → ℝ) (T : ℝ) (n k : ℕ) :
    0 ≤ softmax_temp logits T n k := by
  unfold softmax_temp
  by_cases h0 : n = 0
  · rw [if_pos h0]
  · rw [if_neg h0]
    by_cases hT : T ≤ 1e-8
    · rw [if_pos hT]
      split <;> norm_num
    · rw [if_neg hT]
      apply div_nonneg (Real.exp_pos _).le
      split
      · norm_num
      · exact le_of_not_le (by assumption)

lemma softmax_sum_pos (logits : ℕ → ℝ) (T : ℝ) (n : ℕ) (hn : 1 ≤ n) :
    0 < ∑ i in Finset.range n, Real.exp ((logits i - maxLogit logits n) / T) :=
  Finset.sum_pos (fun _ _ => Real.exp_pos _)
    (Finset.nonempty_range_iff.mpr (Nat.one_le_iff_ne_zero.mp hn))

lemma softmax_sum_one (logits : ℕ → ℝ) (T : ℝ) (n : ℕ) (hn : 1 ≤ n) :
    ∑ k in Finset.range n, softmax_temp logits T n k = 1 := by
  unfold softmax_temp
  rw [if_neg (Nat.one_le_iff_ne_zero.mp hn)]
  by_cases hT : T ≤ 1e-8
  · rw [if_pos hT]
    rw [Finset.sum_ite_eq' (Finset.range n) (argmaxIdx logits n) (fun _ => (1 : ℝ))]
    rw [if_pos (Finset.mem_range.mpr (argmaxIdx_spec logits n hn).1)]
  · rw [if_neg hT]
    have hS := softmax_sum_pos logits T n hn
    rw [if_neg (not_le.mpr hS), ← Finset.sum_div, div_self (ne_of_gt hS)]

lemma softmax_le_one (logits : ℕ → ℝ) (T : ℝ) (n k : ℕ) (hk : k < n) :
    softmax_temp logits T n k ≤ 1 := by
  have hn : 1 ≤ n := by omega
  unfold softmax_temp
  rw [if_neg (Nat.one_le_iff_ne_zero.mp hn)]
  by_cases hT : T ≤ 1e-8
  · rw [if_pos hT]
    split <;> norm_num
  · rw [if_neg hT]
    have hS := softmax_sum_pos logits T n hn
    rw [if_neg (not_le.mpr hS)]
    rw [div_le_one hS]
    exact Finset.single_le_sum (f := fun i => Real.exp ((logits i - maxLogit logits n) / T))
      (fun i _ => (Real.exp_pos _).le) (Finset.mem_range.mpr hk)

lemma entropy_norm_nonneg (p : ℕ → ℝ) (n : ℕ) (hp : ∀ i < n, p i ≤ 1) :
    0 ≤ entropy_norm p n := by
  unfold entropy_norm
  by_cases h0 : n = 0
  · rw [if_pos h0]
  · rw [if_neg h0]
    dsimp only
    split
    · apply div_nonneg _ (le_of_lt (by assumption))
      apply Finset.sum_nonneg
      intro i hi
      set x : ℝ := if p i ≤ 1e-12 then 1e-12 else p i with hx
      have hxpos : 0 < x := by
        rw [hx]
        split
        · norm_num
        · linarith [not_le.mp (by assumption : ¬ p i ≤ 1e-12)]
      have hxle : x ≤ 1 := by
        rw [hx]
        split
        · norm_num
        · exact hp i (Finset.mem_range.mp hi)
      have hlog : Real.log x ≤ 0 := Real.log_nonpos hxpos.le hxle
      have := mul_nonpos_of_nonneg_of_nonpos hxpos.le hlog
      linarith
    · exact le_refl 0

lemma kappa2_ge (s : GraphState) (p dt : ℝ) (i : ℕ) (hi : i < s.N * s.N) :
    s.prm.kappa_min ≤ kappa2 s p dt i := by
  unfold kappa2
  rw [if_pos hi]
  exact le_max_right _ _

lemma E3_nonneg (s : GraphState) (p dt : ℝ) : 0 ≤ E3 s p dt := le_max_right _ _

lemma pJump_dt_zero (s : GraphState) (p : ℝ) : pJump s p 0 = 0 := by
  unfold pJump
  rw [mul_zero, Real.exp_zero, sub_self]

lemma exp_neg_one_lt_one : Real.exp (-1) < 1 := by
  have h := Real.exp_lt_exp.mpr (show (-1 : ℝ) < 0 by norm_num)
  rwa [Real.exp_zero] at h

lemma E3_one (s : GraphState) (hE : s.E = 1) (ha : s.prm.alpha = 0)
    (hb : s.prm.beta_E = 0) : E3 s 1 1 = 1 := by
  unfold E3
  rw [hE, ha, hb]
  rw [zero_mul, zero_mul, sub_zero, zero_mul, add_zero]
  exact max_eq_left zero_le_one

lemma Theta4_one (s : GraphState) (hT : s.prm.Theta0 = 1) (h1 : s.prm.a1 = 0)
    (h2 : s.prm.a2 = 0) : Theta4 s 1 1 = 1 := by
  unfold Theta4
  rw [hT, h1, h2, zero_mul, zero_mul, add_zero, sub_zero]

lemma hrate_one (s : GraphState) (hE : s.E = 1) (ha : s.prm.alpha = 0)
    (hb : s.prm.beta_E = 0) (hT : s.prm.Theta0 = 1) (h1 : s.prm.a1 = 0)
    (h2 : s.prm.a2 = 0) (hg : s.prm.gamma = 1) (hh : s.prm.h0 = 1) :
    hrate s 1 1 = 1 := by
  unfold hrate
  rw [E3_one s hE ha hb, Theta4_one s hT h1 h2, hg, hh, sub_self,
    zero_div, Real.exp_zero, one_mul]

lemma jump_guard_of (s : GraphState) (hE : s.E = 1) (ha : s.prm.alpha = 0)
    (hb : s.prm.beta_E = 0) (hT : s.prm.Theta0 = 1) (h1 : s.prm.a1 = 0)
    (h2 : s.prm.a2 = 0) (hg : s.prm.gamma = 1) (hh : s.prm.h0 = 1)
    (hu : s.rng.un s.rng.ui = 0) : s.rng.un s.rng.ui < pJump s 1 1 := by
  rw [hu]
  unfold pJump
  rw [hrate_one s hE ha hb hT h1 h2 hg hh, mul_one]
  linarith [exp_neg_one_lt_one]

/-- C3: for every handle state, Parameters, and drive value, a call to
`ssd_step` with `dt = 0` never takes the jump branch: the emitted `did_jump`
flag is 0, because `p_jump = 1 - exp(-h*0) = 0` and a uniform draw in [0,1)
is never below 0. -/
theorem c3_dt_zero_never_jumps (s : GraphState) (p : ℝ) (hw : s.rng.wf) :
    (ssd_step s p 0).2.did_jump = 0 := by
  have hng : ¬ s.rng.un s.rng.ui < pJump s p 0 := by
    rw [pJump_dt_zero]
    exact not_lt.mpr (hw s.rng.ui).1
  unfold ssd_step
  rw [if_neg hng]
  rfl

/-- Witness for C3 at a concrete state and drive. -/
theorem c3_witness : RandomSource.wf sW.rng ∧ (ssd_step sW 1 0).2.did_jump = 0 := by
  have hw : RandomSource.wf sW.rng := by
    intro n
    refine ⟨le_refl 0, ?_⟩
    norm_num [sW, U0]
  exact ⟨hw, c3_dt_zero_never_jumps sW 1 hw⟩

/-- C4: two handles created with identical N, seed and Parameters and stepped
through the same `(drive, dt)` sequence produce identical telemetry
sequences; in the embedding every source of state (including the random
engine) lives in the handle, so equal creations give equal runs. -/
theorem c4_two_run_determinism (gen : ℕ → RandomSource) (n : ℤ) (prm : SSDParams)
    (seed : ℕ) (a b : GraphState) (inputs : List (ℝ × ℝ))
    (h1 : ssd_create n prm seed gen = some a) (h2 : ssd_create n prm seed gen = some b) :
    ssd_run a inputs = ssd_run b inputs := by
  rw [h1] at h2
  cases Option.some.inj h2
  rfl

/-- Witness for C4 at a concrete creation and input sequence. -/
theorem c4_witness :
    ssd_create 1 P0 5 (fun _ => U0) = some (initState 1 P0 U0) ∧
    ssd_run (initState 1 P0 U0) [(1, 1)] = ssd_run (initState 1 P0 U0) [(1, 1)] := by
  have hc : ssd_create 1 P0 5 (fun _ => U0) = some (initState 1 P0 U0) := by
    norm_num [ssd_create]
  exact ⟨hc, c4_two_run_determinism (fun _ => U0) 1 P0 5 _ _ _ hc hc⟩

/-- C5: whenever a step takes the jump branch, the freshly computed policy
vector (the temperature-scaled softmax over the N logits) has every entry
nonnegative and sums to exactly 1 (real-number model of "within
floating-point tolerance"). -/
theorem c5_jump_policy_is_distribution (s : GraphState) (p dt : ℝ) (hn : 1 ≤ s.N)
    (hj : s.rng.un s.rng.ui < pJump s p dt) :
    (∀ k < s.N, 0 ≤ (ssd_step s p dt).1.pi k) ∧
    ∑ k in Finset.range s.N, (ssd_step s p dt).1.pi k = 1 := by
  unfold ssd_step
  rw [if_pos hj]
  show (∀ k < s.N, 0 ≤ piJump s p dt k) ∧ ∑ k in Finset.range s.N, piJump s p dt k = 1
  unfold piJump
  exact ⟨fun k _ => softmax_nonneg _ _ _ _, softmax_sum_one _ _ _ hn⟩

/-- Witness for C5 at a concrete jumping step. -/
theorem c5_witness :
    (1 ≤ sJ.N ∧ sJ.rng.un sJ.rng.ui < pJump sJ 1 1) ∧
    ((∀ k < sJ.N, 0 ≤ (ssd_step sJ 1 1).1.pi k) ∧
      ∑ k in Finset.range sJ.N, (ssd_step sJ 1 1).1.pi k = 1) := by
  have hj : sJ.rng.un sJ.rng.ui < pJump sJ 1 1 :=
    jump_guard_of sJ rfl rfl rfl rfl rfl rfl rfl rfl rfl
  exact ⟨⟨by norm_num [sJ], hj⟩, c5_jump_policy_is_distribution sJ 1 1 (by norm_num [sJ]) hj⟩

/-- C6: if the temperature handed to `softmax_temp` is at most 1e-8, the
result is exactly one-hot: 1 at the index of the maximum logit with ties
broken by first occurrence, 0 everywhere else.  (Inside `ssd_step` the
temperature passed is `h->T = max(1e-6, ...)`, so this branch cannot fire
there; the property is about the softmax routine itself.) -/
theorem c6_zero_temperature_one_hot (logits : ℕ → ℝ) (T : ℝ) (n : ℕ)
    (hT : T ≤ 1e-8) (hn : 1 ≤ n) :
    softmax_temp logits T n = (fun k => if k = argmaxIdx logits n then 1 else 0) ∧
    argmaxIdx logits n < n ∧
    (∀ k < n, logits k ≤ logits (argmaxIdx logits n)) ∧
    (∀ k < argmaxIdx logits n, logits k < logits (argmaxIdx logits n)) := by
  refine ⟨?_, argmaxIdx_spec logits n hn⟩
  unfold softmax_temp
  rw [if_neg (Nat.one_le_iff_ne_zero.mp hn), if_pos hT]

/-- Witness for C6 at temperature 0 on two concrete logits. -/
theorem c6_witness :
    ((0:ℝ) ≤ 1e-8 ∧ 1 ≤ 2) ∧
    (softmax_temp (fun k => (k:ℝ)) 0 2 =
        (fun k => if k = argmaxIdx (fun k => (k:ℝ)) 2 then 1 else 0) ∧
      argmaxIdx (fun k => (k:ℝ)) 2 < 2 ∧
      (∀ k : ℕ, k < 2 → ((k:ℝ)) ≤ ((argmaxIdx (fun k => (k:ℝ)) 2 : ℕ) : ℝ)) ∧
      (∀ k : ℕ, k < argmaxIdx (fun k => (k:ℝ)) 2 →
        ((k:ℝ)) < ((argmaxIdx (fun k => (k:ℝ)) 2 : ℕ) : ℝ))) :=
  ⟨⟨by norm_num, by norm_num⟩,
    c6_zero_temperature_one_hot (fun k => (k:ℝ)) 0 2 (by norm_num) (by norm_num)⟩

/-- C9 (amended): `ssd_step` against a null handle returns immediately:
no state exists to mutate and the caller-supplied telemetry struct is left
with its previous contents (it is not zeroed). -/
theorem c9_null_handle_noop (p dt : ℝ) (out : SSDTelemetry) :
    ssd_step_api none p dt out = (none, out) := rfl

/-- Counterexample to C9 as stated: with prior contents `E = 1` in the
caller's telemetry struct, a null-handle step leaves `E = 1`, not 0. -/
theorem c9_counterexample :
    (ssd_step_api none 0 0 T1).2.E = 1 ∧ (1:ℝ) ≠ 0 :=
  ⟨rfl, by norm_num⟩

/-- C1 (amended): after every `ssd_step` call, every inertia matrix entry is
at least `kappa_min` and the heat `E` is nonnegative, PROVIDED the Parameters
satisfy `delta_kappa ≥ 0` and `c0_cool ≥ 0` — the rewire adds `delta_kappa`
with no floor re-check ("only increases" presumes it is nonnegative) and the
cooling multiplies `E` by `c0_cool` with no clamp. -/
theorem c1_invariants_hold_for_nonneg_params (s : GraphState) (p dt : ℝ)
    (hd : 0 ≤ s.prm.delta_kappa) (hc : 0 ≤ s.prm.c0_cool) :
    (∀ i < s.N * s.N, s.prm.kappa_min ≤ (ssd_step s p dt).1.kappa i) ∧
    0 ≤ (ssd_step s p dt).1.E := by
  unfold ssd_step
  by_cases hj : s.rng.un s.rng.ui < pJump s p dt
  · rw [if_pos hj]
    constructor
    · intro i hi
      show s.prm.kappa_min ≤ kappaJump s p dt i
      unfold kappaJump
      split
      · exact le_max_right _ _
      · rw [Function.update_apply]
        split
        · rename_i heq
          subst heq
          have := kappa2_ge s p dt _ hi
          linarith
        · exact kappa2_ge s p dt i hi
    · show 0 ≤ E3 s p dt * s.prm.c0_cool
      exact mul_nonneg (E3_nonneg s p dt) hc
  · rw [if_neg hj]
    constructor
    · intro i hi
      show s.prm.kappa_min ≤ kappaNoJump s p dt i
      unfold kappaNoJump
      split
      · rw [Function.update_apply]
        split
        · rename_i heq
          subst heq
          have := kappa2_ge s p dt _ hi
          linarith
        · exact kappa2_ge s p dt i hi
      · exact kappa2_ge s p dt i hi
    · exact E3_nonneg s p dt

/-- Witness for C1 (amended) at a concrete state with nonnegative deltas. -/
theorem c1_witness :
    (0 ≤ sW.prm.delta_kappa ∧ 0 ≤ sW.prm.c0_cool) ∧
    ((∀ i < sW.N * sW.N, sW.prm.kappa_min ≤ (ssd_step sW 0 0).1.kappa i) ∧
      0 ≤ (ssd_step sW 0 0).1.E) :=
  ⟨⟨le_refl 0, le_refl 0⟩,
    c1_invariants_hold_for_nonneg_params sW 0 0 (le_refl 0) (le_refl 0)⟩

/-- Counterexample to C1 as stated (quantified over every Parameters value):
with `c0_cool = -1` and heat 1, the jump branch's cooling drives `E` to -1,
so `E ≥ 0` fails after the step. -/
theorem c1_counterexample :
    (ssd_step s1 1 1).2.did_jump = 1 ∧ (ssd_step s1 1 1).1.E < 0 := by
  have hj : s1.rng.un s1.rng.ui < pJump s1 1 1 :=
    jump_guard_of s1 rfl rfl rfl rfl rfl rfl rfl rfl rfl
  unfold ssd_step
  rw [if_pos hj]
  refine ⟨rfl, ?_⟩
  show E3 s1 1 1 * s1.prm.c0_cool < 0
  rw [E3_one s1 rfl rfl rfl]
  show (1:ℝ) * (-1) < 0
  norm_num

lemma epsExplore_sW : epsExplore sW 0 0 = 0 := by
  unfold epsExplore
  rw [show sW.prm.eps0 = 0 from rfl, show sW.prm.d1 = 0 from rfl,
    show sW.prm.d2 = 0 from rfl, zero_mul, zero_mul, add_zero, sub_zero]
  unfold clip
  norm_num

/-- C2 (amended): with `drive = 0, dt = 0`, no jump occurs, and `E` and the
inertia matrix are unchanged provided `E ≥ 0`, every matrix entry is already
at least `kappa_min`, and the ε-greedy nudge draw does not fire; but the
no-jump branch still runs its deterministic move, so `current` becomes the
argmax of the current row (with the 1e-6 self-loop penalty), which can
differ from the previous value. -/
theorem c2_no_drive_partial_stability (s : GraphState)
    (hu : 0 ≤ s.rng.un s.rng.ui) (hE : 0 ≤ s.E)
    (hk : ∀ i, i < s.N * s.N → s.prm.kappa_min ≤ s.kappa i)
    (hn : epsExplore s 0 0 ≤ s.rng.un (s.rng.ui + 1)) :
    (ssd_step s 0 0).2.did_jump = 0 ∧ (ssd_step s 0 0).1.E = s.E ∧
    (∀ i, (ssd_step s 0 0).1.kappa i = s.kappa i) ∧
    (ssd_step s 0 0).1.current = bestAction s.kappa s.current s.N := by
  have hng : ¬ s.rng.un s.rng.ui < pJump s 0 0 := by
    rw [pJump_dt_zero]
    exact not_lt.mpr hu
  have hk2 : kappa2 s 0 0 = s.kappa := by
    funext i
    unfold kappa2
    split
    · rw [mul_zero, add_zero]
      exact max_eq_left (hk i (by assumption))
    · rfl
  have hE3 : E3 s 0 0 = s.E := by
    unfold E3
    rw [mul_zero, add_zero]
    exact max_eq_left hE
  have hnf : ¬ nudgeFires s 0 0 := not_lt.mpr hn
  have hkn : kappaNoJump s 0 0 = s.kappa := by
    unfold kappaNoJump
    rw [if_neg (fun hcon => hnf hcon.1), hk2]
  unfold ssd_step
  rw [if_neg hng]
  refine ⟨rfl, hE3, ?_, ?_⟩
  · intro i
    show kappaNoJump s 0 0 i = s.kappa i
    rw [hkn]
  · show bestAction (kappaNoJump s 0 0) s.current s.N = bestAction s.kappa s.current s.N
    rw [hkn]

/-- Witness for C2 (amended) at a concrete state. -/
theorem c2_witness :
    (0 ≤ sW.rng.un sW.rng.ui ∧ 0 ≤ sW.E ∧
      (∀ i, i < sW.N * sW.N → sW.prm.kappa_min ≤ sW.kappa i) ∧
      epsExplore sW 0 0 ≤ sW.rng.un (sW.rng.ui + 1)) ∧
    ((ssd_step sW 0 0).2.did_jump = 0 ∧ (ssd_step sW 0 0).1.E = sW.E ∧
      (∀ i, (ssd_step sW 0 0).1.kappa i = sW.kappa i) ∧
      (ssd_step sW 0 0).1.current = bestAction sW.kappa sW.current sW.N) := by
  have h1 : 0 ≤ sW.rng.un sW.rng.ui := le_refl 0
  have h2 : 0 ≤ sW.E := le_refl 0
  have h3 : ∀ i, i < sW.N * sW.N → sW.prm.kappa_min ≤ sW.kappa i := fun _ _ => le_refl 0
  have h4 : epsExplore sW 0 0 ≤ sW.rng.un (sW.rng.ui + 1) := le_of_eq epsExplore_sW
  exact ⟨⟨h1, h2, h3, h4⟩, c2_no_drive_partial_stability sW h1 h2 h3 h4⟩

/-- Counterexample to C2 as stated: from a fresh two-node state with all-zero
parameters, one `ssd_step` call with `drive = 0, dt = 0` moves `current` from
0 to 1 (the deterministic argmax move of the no-jump branch still runs). -/
theorem c2_counterexample :
    sW.current = 0 ∧ (ssd_step sW 0 0).1.current = 1 := by
  refine ⟨rfl, ?_⟩
  have hng : ¬ sW.rng.un sW.rng.ui < pJump sW 0 0 := by
    rw [pJump_dt_zero]
    exact not_lt.mpr (le_refl 0)
  have hk2 : kappa2 sW 0 0 = sW.kappa := by
    funext i
    unfold kappa2
    split
    · rw [mul_zero, add_zero]
      exact max_eq_left (le_refl 0)
    · rfl
  have hnf : ¬ nudgeFires sW 0 0 := by
    unfold nudgeFires
    rw [epsExplore_sW]
    exact not_lt.mpr (le_refl 0)
  have hkn : kappaNoJump sW 0 0 = sW.kappa := by
    unfold kappaNoJump
    rw [if_neg (fun hcon => hnf hcon.1), hk2]
  unfold ssd_step
  rw [if_neg hng]
  show bestAction (kappaNoJump sW 0 0) sW.current sW.N = 1
  rw [hkn]
  unfold bestAction
  rw [show List.range sW.N = [0, 1] from rfl, List.foldl_cons, List.foldl_cons,
    List.foldl_nil]
  norm_num [sW, idx]

/-- C7 (amended): with `sigma = 0` the post-jump `current` CAN equal the
pre-jump `current` (the softmax leaves positive probability on the self
loop, see the counterexample); what the -1.0 suppression does guarantee is
that the freshly computed policy gives the pre-jump node strictly less
probability than any other candidate whose post-Phase-2 inertia from the
current node is at least that of the self-loop edge. -/
theorem c7_self_loop_suppression (s : GraphState) (p dt : ℝ) (hs : s.prm.sigma = 0)
    (hj : s.rng.un s.rng.ui < pJump s p dt) (k : ℕ) (hk : k < s.N)
    (hkc : k ≠ s.current)
    (hka : kappa2 s p dt (idx s.current s.current s.N) ≤
      kappa2 s p dt (idx s.current k s.N)) :
    (ssd_step s p dt).1.pi s.current < (ssd_step s p dt).1.pi k := by
  unfold ssd_step
  rw [if_pos hj]
  show piJump s p dt s.current < piJump s p dt k
  have hlog : jumpLogits s p dt s.current < jumpLogits s p dt k := by
    unfold jumpLogits
    rw [hs]
    simp only [zero_mul, add_zero, if_true]
    rw [if_neg hkc]
    linarith
  have hT8 : ¬ T4 s p dt ≤ 1e-8 := by
    have h6 : (1e-6 : ℝ) ≤ T4 s p dt := le_max_left _ _
    intro hcon
    linarith
  have hTpos : (0:ℝ) < T4 s p dt := by
    have h6 : (1e-6 : ℝ) ≤ T4 s p dt := le_max_left _ _
    linarith
  unfold piJump softmax_temp
  rw [if_neg (show s.N ≠ 0 by omega), if_neg hT8]
  have hS := softmax_sum_pos (jumpLogits s p dt) (T4 s p dt) s.N (by omega)
  rw [if_neg (not_le.mpr hS)]
  rw [div_lt_div_iff_of_pos_right hS]
  apply Real.exp_lt_exp.mpr
  rw [div_lt_div_iff_of_pos_right hTpos]
  exact sub_lt_sub_right hlog _

/-- Witness for C7 (amended) at a concrete jumping step on an all-zero row. -/
theorem c7_witness :
    (sJ.prm.sigma = 0 ∧ sJ.rng.un sJ.rng.ui < pJump sJ 1 1 ∧ 1 < sJ.N ∧
      (1:ℕ) ≠ sJ.current ∧
      kappa2 sJ 1 1 (idx sJ.current sJ.current sJ.N) ≤
        kappa2 sJ 1 1 (idx sJ.current 1 sJ.N)) ∧
    (ssd_step sJ 1 1).1.pi sJ.current < (ssd_step sJ 1 1).1.pi 1 := by
  have hj : sJ.rng.un sJ.rng.ui < pJump sJ 1 1 :=
    jump_guard_of sJ rfl rfl rfl rfl rfl rfl rfl rfl rfl
  have hv : ∀ i, i < sJ.N * sJ.N → kappa2 sJ 1 1 i = 0 := by
    intro i hi
    unfold kappa2
    rw [if_pos hi]
    rw [show sJ.prm.eta = 0 from rfl, show sJ.prm.lam = 0 from rfl,
      show sJ.kappa i = 0 from rfl, show sJ.prm.kappa_min = 0 from rfl]
    norm_num
  have hka : kappa2 sJ 1 1 (idx sJ.current sJ.current sJ.N) ≤
      kappa2 sJ 1 1 (idx sJ.current 1 sJ.N) := by
    rw [hv (idx sJ.current sJ.current sJ.N) (by norm_num [idx, sJ]),
      hv (idx sJ.current 1 sJ.N) (by norm_num [idx, sJ])]
  exact ⟨⟨rfl, hj, by norm_num [sJ], by norm_num [sJ], hka⟩,
    c7_self_loop_suppression sJ 1 1 rfl hj 1 (by norm_num [sJ]) (by norm_num [sJ]) hka⟩

/-- Counterexample to C7 as stated: a jump event with `N = 2`, `sigma = 0`
after which `current` still equals the pre-jump `current` (the zero sampling
draw lands inside the positive softmax mass of the suppressed self loop). -/
theorem c7_counterexample :
    sJ.N = 2 ∧ sJ.prm.sigma = 0 ∧ (ssd_step sJ 1 1).2.did_jump = 1 ∧
    (ssd_step sJ 1 1).1.current = sJ.current := by
  have hj : sJ.rng.un sJ.rng.ui < pJump sJ 1 1 :=
    jump_guard_of sJ rfl rfl rfl rfl rfl rfl rfl rfl rfl
  refine ⟨rfl, rfl, ?_, ?_⟩
  · unfold ssd_step
    rw [if_pos hj]
    rfl
  · unfold ssd_step
    rw [if_pos hj]
    show selectedNode sJ 1 1 = sJ.current
    have h0 : (0:ℝ) ≤ 0 + piJump sJ 1 1 0 := by
      rw [zero_add]
      unfold piJump
      exact softmax_nonneg _ _ _ _
    show selectWalk (piJump sJ 1 1) 0 1 2 0 0 = 0
    rw [show (2:ℕ) = 1 + 1 from rfl]
    rw [selectWalk]
    rw [if_pos h0]

/-- C8: from a fresh 3-node handle with `G0 = 0.5, g = 0, eta = 0.3, rho = 0,
lam = 0, kappa_min = 0, eps_noise = 0`, one step with `drive = 1, dt = 1`
computes `flow = 0.5` on all 9 edges, `flowNorm = 1.5`, and every inertia
entry equals 0.15 immediately after Phase 2. -/
theorem c8_scenario (prm : SSDParams) (r : RandomSource)
    (h1 : prm.G0 = 0.5) (h2 : prm.g = 0) (h3 : prm.eta = 0.3) (h4 : prm.rho = 0)
    (h5 : prm.lam = 0) (h6 : prm.kappa_min = 0) (h7 : prm.eps_noise = 0) :
    (∀ i < 9, flow_j (initState 3 prm r) 1 i = 0.5) ∧
    J_norm (initState 3 prm r) 1 = 1.5 ∧
    (∀ i < 9, kappa2 (initState 3 prm r) 1 1 i = 0.15) := by
  have hf : ∀ i, flow_j (initState 3 prm r) 1 i = 0.5 := by
    intro i
    unfold flow_j
    rw [show (initState 3 prm r).prm = prm from rfl,
      show (initState 3 prm r).kappa i = 0 from rfl, h1, h2, h7]
    norm_num
  refine ⟨fun i _ => hf i, ?_, ?_⟩
  · unfold J_norm
    rw [show (initState 3 prm r).N = 3 from rfl]
    rw [show (∑ i in Finset.range (3*3),
        flow_j (initState 3 prm r) 1 i * flow_j (initState 3 prm r) 1 i) =
        ∑ _i in Finset.range (3*3), (0.25:ℝ) from
      Finset.sum_congr rfl (fun i _ => by rw [hf i]; norm_num)]
    rw [Finset.sum_const, Finset.card_range, nsmul_eq_mul]
    rw [show ((3*3 : ℕ):ℝ) * 0.25 = 1.5 ^ 2 by norm_num]
    exact Real.sqrt_sq (by norm_num)
  · intro i hi
    unfold kappa2
    rw [show (initState 3 prm r).N = 3 from rfl]
    rw [if_pos (show i < 3*3 from hi)]
    rw [show (initState 3 prm r).kappa i = 0 from rfl,
      show (initState 3 prm r).prm = prm from rfl, hf i, h3, h4, h5, h6]
    rw [show (0:ℝ) + (0.3 * (1 * 0.5 - 0 * (0.5 * 0.5)) - 0 * ((0:ℝ) - 0)) * 1 = 0.15
      by norm_num]
    exact max_eq_left (by norm_num)

/-- Witness for C8 with the concrete parameter block `P8`. -/
theorem c8_witness :
    (P8.G0 = 0.5 ∧ P8.g = 0 ∧ P8.eta = 0.3 ∧ P8.rho = 0 ∧ P8.lam = 0 ∧
      P8.kappa_min = 0 ∧ P8.eps_noise = 0) ∧
    ((∀ i < 9, flow_j (initState 3 P8 U0) 1 i = 0.5) ∧
      J_norm (initState 3 P8 U0) 1 = 1.5 ∧
      (∀ i < 9, kappa2 (initState 3 P8 U0) 1 1 i = 0.15)) :=
  ⟨⟨rfl, rfl, rfl, rfl, rfl, rfl, rfl⟩,
    c8_scenario P8 U0 rfl rfl rfl rfl rfl rfl rfl⟩

/-- C10 (amended): from any identical pre-step state and identical inputs,
the two `ssd_step` implementations produce identical post-step states and
telemetry identical in every field except `H`: ssd_core.cpp emits the stale
Phase-4 entropy while the align DLL recomputes the entropy from the
post-step policy (which differs on jump ticks that change the policy). -/
theorem c10_step_equiv_except_H (s : GraphState) (p dt : ℝ) :
    (ssd_align_step s p dt).1 = (ssd_step s p dt).1 ∧
    (ssd_align_step s p dt).2.E = (ssd_step s p dt).2.E ∧
    (ssd_align_step s p dt).2.Theta = (ssd_step s p dt).2.Theta ∧
    (ssd_align_step s p dt).2.h = (ssd_step s p dt).2.h ∧
    (ssd_align_step s p dt).2.T = (ssd_step s p dt).2.T ∧
    (ssd_align_step s p dt).2.J_norm = (ssd_step s p dt).2.J_norm ∧
    (ssd_align_step s p dt).2.align_eff = (ssd_step s p dt).2.align_eff ∧
    (ssd_align_step s p dt).2.kappa_mean = (ssd_step s p dt).2.kappa_mean ∧
    (ssd_align_step s p dt).2.current = (ssd_step s p dt).2.current ∧
    (ssd_align_step s p dt).2.did_jump = (ssd_step s p dt).2.did_jump ∧
    (ssd_align_step s p dt).2.rewired_to = (ssd_step s p dt).2.rewired_to := by
  unfold ssd_align_step ssd_step
  rw [alignPJump_eq]
  by_cases hc : s.rng.un s.rng.ui < pJump s p dt
  · rw [if_pos hc, if_pos hc]
    unfold alignStepJump stepJump
    rw [alignKappaJump_eq, alignWJump_eq, alignE3_eq, alignT_eq, alignPi_eq,
      alignSelected_eq, alignTheta_eq, alignHrate_eq, alignKappaMean_eq]
    exact ⟨rfl, rfl, rfl, rfl, rfl, rfl, rfl, rfl, rfl, rfl, rfl⟩
  · rw [if_neg hc, if_neg hc]
    unfold alignStepNoJump stepNoJump
    rw [alignKappaNoJump_eq, alignWNoJump_eq, alignE3_eq, alignT_eq,
      alignUiNoJump_eq, alignTheta_eq, alignHrate_eq, alignKappaMean_eq]
    exact ⟨rfl, rfl, rfl, rfl, rfl, rfl, rfl, rfl, rfl, rfl, rfl⟩

lemma entropy_norm_two (q : ℕ → ℝ) (h0 : ¬ q 0 ≤ 1e-12) (h1 : ¬ q 1 ≤ 1e-12) :
    entropy_norm q 2 =
      (-(q 0 * Real.log (q 0)) + -(q 1 * Real.log (q 1))) / Real.log 2 := by
  unfold entropy_norm
  rw [if_neg (show (2:ℕ) ≠ 0 by norm_num)]
  simp only [Finset.sum_range_succ, Finset.sum_range_zero, zero_add]
  rw [if_neg h0, if_neg h1]
  rw [if_pos (show (0:ℝ) < Real.log ((2:ℕ):ℝ) from by
    rw [Nat.cast_ofNat]
    exact Real.log_pos (by norm_num))]
  rw [Nat.cast_ofNat]

/-- Counterexample to C10 as stated: a jump tick from a state whose stale
policy vector is `(2, 3)` makes ssd_core.cpp emit a negative `H` (entropy
of the stale vector) while the align DLL emits the nonnegative entropy of
the freshly computed softmax policy, so the `H` fields differ. -/
theorem c10_counterexample :
    (ssd_step sH 1 1).2.H ≠ (ssd_align_step sH 1 1).2.H := by
  have hj : sH.rng.un sH.rng.ui < pJump sH 1 1 :=
    jump_guard_of sH rfl rfl rfl rfl rfl rfl rfl rfl rfl
  have hcore : (ssd_step sH 1 1).2.H = entropy_norm sH.pi 2 := by
    unfold ssd_step
    rw [if_pos hj]
    show policyEntropy sH = entropy_norm sH.pi 2
    unfold policyEntropy
    rw [if_neg (show sH.N ≠ 0 by norm_num [sH])]
    rfl
  have halign : (ssd_align_step sH 1 1).2.H = entropy_norm (piJump sH 1 1) 2 := by
    unfold ssd_align_step
    rw [alignPJump_eq, if_pos hj]
    show (if sH.N = 0 then 1 else entropy_norm (alignPi sH 1 1) sH.N) =
      entropy_norm (piJump sH 1 1) 2
    rw [if_neg (show sH.N ≠ 0 by norm_num [sH]), alignPi_eq]
    rfl
  have hneg : entropy_norm sH.pi 2 < 0 := by
    rw [entropy_norm_two sH.pi (by norm_num [sH]) (by norm_num [sH])]
    rw [show sH.pi 0 = 2 from rfl, show sH.pi 1 = 3 from rfl]
    apply div_neg_of_neg_of_pos
    · have l2 : 0 < Real.log 2 := Real.log_pos (by norm_num)
      have l3 : 0 < Real.log 3 := Real.log_pos (by norm_num)
      nlinarith
    · exact Real.log_pos (by norm_num)
  have hpos : 0 ≤ entropy_norm (piJump sH 1 1) 2 := by
    apply entropy_norm_nonneg
    intro i hi
    unfold piJump
    exact softmax_le_one _ _ _ i (show i < sH.N from hi)
  rw [hcore, halign]
  exact ne_of_lt (lt_of_lt_of_le hneg hpos)
